import Mathlib

set_option maxHeartbeats 1000000

/-!
Shallow embedding of the valkeystore session store (valkeystore.go).

The external collaborators (the valkey network client, the securecookie
codec, `crypto/rand` and the `encoding/json` / `encoding/gob` wire codecs)
are modelled by explicit parameters carrying their outcomes; everything the
repository itself computes is translated directly from the Go source.
-/

/-- Amount of time for cookies/valkey keys to expire (`sessionExpire = 86400 * 30`). -/
def sessionExpire : Int := 86400 * 30

/-- The alphabet of Go's `encoding/base32.StdEncoding` (RFC 4648, uppercase). -/
def base32Alphabet : List Char :=
  ['A', 'B', 'C', 'D', 'E', 'F', 'G', 'H', 'I', 'J', 'K', 'L', 'M',
   'N', 'O', 'P', 'Q', 'R', 'S', 'T', 'U', 'V', 'W', 'X', 'Y', 'Z',
   '2', '3', '4', '5', '6', '7']

/-- Split a byte list into the groups of five bytes that `encoding/base32`
consumes; only the final group may be shorter than five. -/
def chunks5 : List Nat → List (List Nat)
  | [] => []
  | [a] => [[a]]
  | [a, b] => [[a, b]]
  | [a, b, c] => [[a, b, c]]
  | [a, b, c, d] => [[a, b, c, d]]
  | a :: b :: c :: d :: e :: rest => [a, b, c, d, e] :: chunks5 rest

/-- The 5-bit alphabet indices `encoding/base32` emits for one input group of
one to five bytes: the group's bytes are read big-endian and cut into
`ceil(8*n/5)` five-bit slices (the last slice zero-padded on the right). -/
def b32Indices (chunk : List Nat) : List Nat :=
  let val := chunk.foldl (fun a b => a * 256 + b % 256) 0
  let d := (8 * chunk.length + 4) / 5
  let v := val * 2 ^ (5 * d - 8 * chunk.length)
  (List.range d).map (fun i => v / 2 ^ (5 * (d - 1 - i)) % 32)

/-- All 5-bit indices of the data characters of the base-32 encoding. -/
def base32Indices (l : List Nat) : List Nat :=
  ((chunks5 l).map b32Indices).flatten

/-- The data characters (everything before the `=` padding) of
`base32.StdEncoding.EncodeToString l`. -/
def base32DataChars (l : List Nat) : List Char :=
  (base32Indices l).map (fun i => base32Alphabet.getD i ' ')

/-- Number of `=` padding characters `base32.StdEncoding` appends, a function
of the input length modulo five. -/
def base32PadLen (l : List Nat) : Nat :=
  match l.length % 5 with
  | 1 => 6
  | 2 => 4
  | 3 => 3
  | 4 => 1
  | _ => 0

/-- Models `base32.StdEncoding.EncodeToString`: the data characters followed
by the `=` padding (padding only ever occurs at the very end, after the data
characters of the final partial group). -/
def base32EncodeToString (l : List Nat) : List Char :=
  base32DataChars l ++ List.replicate (base32PadLen l) '='

/-- Models `strings.TrimRight(s, "=")`: drop every trailing `=`. -/
def trimRightEq (l : List Char) : List Char :=
  (l.reverse.dropWhile (fun c => c == '=')).reverse

/-- The id `Save` generates for a session with empty id:
`strings.TrimRight(base32.StdEncoding.EncodeToString(key), "=")`, where `key`
stands for the bytes returned by `securecookie.GenerateRandomKey(32)`. -/
def generateSessionID (key : List Nat) : String :=
  String.mk (trimRightEq (base32EncodeToString key))

/-- A key of the Go `map[interface{}]interface{}` session value map: either a
string key or some non-string key (tagged abstractly by a number). -/
inductive GoKey
  | str : String → GoKey
  | other : Nat → GoKey
deriving DecidableEq

/-- A session value (a representative closed universe of `interface{}`
payload values). -/
inductive GoVal
  | str : String → GoVal
  | int : Int → GoVal
  | boolean : Bool → GoVal
deriving DecidableEq

/-- The session value map `session.Values`, as an association list with Go
map update semantics (`setEntry`). -/
abbrev ValMap := List (GoKey × GoVal)

/-- Go map read `m[k]`. -/
def ValMap.lookup : ValMap → GoKey → Option GoVal
  | [], _ => none
  | (k', v) :: rest, k => if k' = k then some v else ValMap.lookup rest k

/-- Go map assignment `m[k] = v`: overwrite the existing binding or append. -/
def setEntry : ValMap → GoKey → GoVal → ValMap
  | [], k, v => [(k, v)]
  | (k', v') :: rest, k, v =>
      if k' = k then (k, v) :: rest else (k', v') :: setEntry rest k v

/-- The fields of `sessions.Options` the store reads and writes. -/
structure SessionOptions where
  path : String
  maxAge : Int
deriving DecidableEq

/-- A `sessions.Session`: id, name, IsNew flag, value map and per-session
options. -/
structure Session where
  id : String
  name : String
  isNew : Bool
  values : ValMap
  options : SessionOptions
deriving DecidableEq

/-- A cookie as produced by `sessions.NewCookie(name, value, options)`. -/
structure Cookie where
  name : String
  value : String
  path : String
  maxAge : Int
deriving DecidableEq

/-- `sessions.NewCookie`: a cookie carrying the given name and value and the
options' attributes. -/
def mkCookie (name value : String) (options : SessionOptions) : Cookie :=
  ⟨name, value, options.path, options.maxAge⟩

/-- A backend round trip command (`SETEX`, `GET`, `DEL`, `PING`). -/
inductive Command
  | setex : String → Int → List Char → Command
  | get : String → Command
  | del : String → Command
  | ping : Command
deriving DecidableEq

/-- The `ValkeyStore` configuration fields (the valkey client itself is an
external collaborator, modelled by response parameters; the serializer is
modelled by passing serialization outcomes to `save`/`load`). -/
structure ValkeyStore where
  Options : SessionOptions
  DefaultMaxAge : Int
  maxLength : Nat
  keyPrefix : String
deriving DecidableEq

/-- Models `ValkeyStore.ping`: `pingResp` is the outcome of
`r.Client.Do(ctx, PING).ToString()`. On a transport error the Go code
returns `(false, err)`; otherwise it returns `(data == "PONG", nil)`. -/
def ValkeyStore.ping (pingResp : Except String String) : Bool × Option String :=
  match pingResp with
  | .error e => (false, some e)
  | .ok data => (data == "PONG", none)

/-- Models `NewValkeyStoreWithClient`: builds the store with its default
configuration, runs `_, err := store.ping()` and returns `(store, err)`;
construction fails exactly when `err` is non-nil (the ping's boolean result
is discarded by the Go code). -/
def NewValkeyStoreWithClient (pingResp : Except String String) :
    Except String ValkeyStore :=
  let store : ValkeyStore :=
    { Options := { path := "/", maxAge := sessionExpire }
      DefaultMaxAge := 60 * 20
      maxLength := 4096
      keyPrefix := "session_" }
  match (ValkeyStore.ping pingResp).2 with
  | some e => .error e
  | none => .ok store

/-- Models the lower-case `ValkeyStore.save`: `serialized` is the outcome of
`r.serializer.Serialize(session)` and `backend` answers each issued command.
Returns the Go error result together with the list of backend commands
actually issued. -/
def ValkeyStore.save (r : ValkeyStore) (session : Session)
    (serialized : Except String (List Char))
    (backend : Command → Option String) : Option String × List Command :=
  match serialized with
  | .error e => (some e, [])
  | .ok b =>
    if r.maxLength ≠ 0 ∧ r.maxLength < b.length then
      (some "sessionstore: the value to store is too big", [])
    else
      let age := if session.options.maxAge = 0 then r.DefaultMaxAge
                 else session.options.maxAge
      let cmd := Command.setex (r.keyPrefix ++ session.id) age b
      (backend cmd, [cmd])

/-- The observable outcome of `Save`/`Delete`: the (possibly mutated)
session, the backend commands issued, the cookies written to the response,
and the returned error. -/
structure StoreOut where
  session : Session
  commands : List Command
  cookies : List Cookie
  error : Option String
deriving DecidableEq

/-- Models `ValkeyStore.Save`: `randKey` stands for the bytes of
`securecookie.GenerateRandomKey(32)`, `serialized` for the serializer
outcome, `backend` for the valkey client, `encoded` for
`securecookie.EncodeMulti(session.Name(), session.ID, r.Codecs...)`. -/
def ValkeyStore.Save (r : ValkeyStore) (session : Session) (randKey : List Nat)
    (serialized : Except String (List Char))
    (backend : Command → Option String)
    (encoded : Except String String) : StoreOut :=
  if session.options.maxAge ≤ 0 then
    let cmd := Command.del (r.keyPrefix ++ session.id)
    match backend cmd with
    | some e => ⟨session, [cmd], [], some e⟩
    | none => ⟨session, [cmd], [mkCookie session.name "" session.options], none⟩
  else
    let session' :=
      if session.id = "" then { session with id := generateSessionID randKey }
      else session
    match ValkeyStore.save r session' serialized backend with
    | (some e, cmds) => ⟨session', cmds, [], some e⟩
    | (none, cmds) =>
      match encoded with
      | .error e => ⟨session', cmds, [], some e⟩
      | .ok enc => ⟨session', cmds, [mkCookie session'.name enc session'.options], none⟩

/-- Models `ValkeyStore.Delete`: issue `DEL prefix+id`; on error return it
with the session untouched and no cookie; on success write the expired
cookie (empty value, a copy of the options with `MaxAge = -1`) and clear
every entry of `session.Values`. -/
def ValkeyStore.Delete (r : ValkeyStore) (session : Session)
    (backend : Command → Option String) : StoreOut :=
  let cmd := Command.del (r.keyPrefix ++ session.id)
  match backend cmd with
  | some e => ⟨session, [cmd], [], some e⟩
  | none =>
    ⟨{ session with values := [] }, [cmd],
      [mkCookie session.name "" { session.options with maxAge := -1 }], none⟩

/-- The outcome of the backend `GET prefix+id` issued by `load`: a valkey
nil reply (key absent), a command/transport error, a reply that fails
`resp.ToString()`, or the payload string. -/
inductive GetResp
  | nilReply
  | failure (e : String)
  | notString (e : String)
  | value (data : List Char)
deriving DecidableEq

/-- Models `ValkeyStore.load`: `resp` is the backend `GET` outcome and
`deserialized` the outcome of `r.serializer.Deserialize(data, session)`
(which merges into `session.Values`). Returns `((found, err), session')`
mirroring Go's `(bool, error)` plus the in-place session mutation. -/
def ValkeyStore.load (session : Session) (resp : GetResp)
    (deserialized : Except String ValMap) : (Bool × Option String) × Session :=
  match resp with
  | .nilReply => ((false, none), session)
  | .failure e => ((false, some e), session)
  | .notString e => ((false, some e), session)
  | .value _ =>
    match deserialized with
    | .error e => ((true, some e), session)
    | .ok vs => ((true, none), { session with values := vs })

/-- Models `ValkeyStore.New`: `cookie` is the request's cookie value for
`name` (none when `request.Cookie(name)` errs), `decodeResp` the outcome of
`securecookie.DecodeMulti` into `session.ID`, and `getResp`/`deserialized`
the load collaborator outcomes. -/
def ValkeyStore.New (r : ValkeyStore) (name : String)
    (cookie : Option String)
    (decodeResp : Except String String)
    (getResp : GetResp)
    (deserialized : Except String ValMap) : Session × Option String :=
  let session : Session :=
    { id := "", name := name, isNew := true, values := [], options := r.Options }
  match cookie with
  | none => (session, none)
  | some _ =>
    match decodeResp with
    | .error e => (session, some e)
    | .ok id =>
      match ValkeyStore.load { session with id := id } getResp deserialized with
      | ((ok, err), session') => ({ session' with isNew := !(err.isNone && ok) }, err)

/-- Project a session value map to the string-keyed `map[string]interface{}`
that `JSONSerializer.Serialize` builds; `none` when some key is not a
string. -/
def toStringKeyMap : ValMap → Option (List (String × GoVal))
  | [] => some []
  | (GoKey.str s, v) :: rest => (toStringKeyMap rest).map (fun m => (s, v) :: m)
  | (GoKey.other _, _) :: _ => none

/-- JSON encoding of a string. -/
def jsonString (s : String) : List Char := '"' :: (s.data ++ ['"'])

/-- JSON encoding of a session value. -/
def jsonVal : GoVal → List Char
  | .str s => jsonString s
  | .int n => (toString n).data
  | .boolean true => ['t', 'r', 'u', 'e']
  | .boolean false => ['f', 'a', 'l', 's', 'e']

/-- JSON encoding of the members of an object. -/
def jsonMembers : List (String × GoVal) → List Char
  | [] => []
  | [kv] => jsonString kv.1 ++ ':' :: jsonVal kv.2
  | kv :: rest => jsonString kv.1 ++ ':' :: jsonVal kv.2 ++ ',' :: jsonMembers rest

/-- Models `json.Marshal` on a string-keyed map: the members wrapped in
object braces. -/
def jsonMarshal (m : List (String × GoVal)) : List Char :=
  Char.ofNat 123 :: (jsonMembers m ++ [Char.ofNat 125])

/-- Models `JSONSerializer.Serialize`: copy `session.Values` into a
`map[string]interface{}`, failing on the first non-string key, then
`json.Marshal` the result. -/
def JSONSerializer.Serialize (values : ValMap) : Except String (List Char) :=
  match toStringKeyMap values with
  | none => .error "non-string key value, cannot serialize session to JSON"
  | some m => .ok (jsonMarshal m)

/-- The merge loop shared by both deserializers: assign every decoded entry
into the existing value map, leaving other entries in place. -/
def mergeEntries (m : ValMap) (values : ValMap) : ValMap :=
  m.foldl (fun vs kv => setEntry vs kv.1 kv.2) values

/-- Models `JSONSerializer.Deserialize`: `unmarshalled` is the outcome of
`json.Unmarshal(data, &m)`; on success every decoded entry is assigned into
`session.Values` (`session.Values[k] = v`), which is not cleared first. -/
def JSONSerializer.Deserialize (unmarshalled : Except String (List (String × GoVal)))
    (values : ValMap) : Except String ValMap :=
  match unmarshalled with
  | .error e => .error e
  | .ok m => .ok (mergeEntries (m.map (fun kv => (GoKey.str kv.1, kv.2))) values)

/-- Models `GobSerializer.Deserialize`: `decoded` is the outcome of
`gob.Decode(&session.Values)`; gob decoding into a non-nil map assigns the
decoded entries into it without clearing pre-existing ones. -/
def GobSerializer.Deserialize (decoded : Except String ValMap)
    (values : ValMap) : Except String ValMap :=
  match decoded with
  | .error e => .error e
  | .ok m => .ok (mergeEntries m values)

/-! ## Sample concrete inputs used by the witness theorems -/

/-- The store configuration `NewValkeyStoreWithClient` builds. -/
def sampleStore : ValkeyStore :=
  { Options := { path := "/", maxAge := sessionExpire }
    DefaultMaxAge := 60 * 20
    maxLength := 4096
    keyPrefix := "session_" }

/-- A store with a small payload limit, for exercising the size check. -/
def smallStore : ValkeyStore :=
  { sampleStore with maxLength := 2 }

/-- A store with the size check disabled (`maxLength = 0`). -/
def unboundedStore : ValkeyStore :=
  { sampleStore with maxLength := 0 }

/-- A session marked for deletion (`MaxAge = 0`). -/
def sampleSession0 : Session :=
  { id := "abc", name := "sid", isNew := false,
    values := [(GoKey.str "foo", GoVal.str "bar")],
    options := { path := "/", maxAge := 0 } }

/-- A fresh persistable session (`MaxAge > 0`, empty id). -/
def sampleSessionNew : Session :=
  { id := "", name := "sid", isNew := true, values := [],
    options := { path := "/", maxAge := 3600 } }

/-- A backend that answers every command successfully. -/
def okBackend : Command → Option String := fun _ => none

/-- A backend that fails every command. -/
def failBackend : Command → Option String := fun _ => some "boom"

/-! ## Claim theorems -/

/-- C1: in `Save`, a session whose `Options.MaxAge` equals exactly 0 takes the
delete-on-save branch (`MaxAge <= 0`): the only backend command issued is
`DEL prefix+id`, no `SETEX` ever reaches the backend, so the store's
`DefaultMaxAge` fallback is never applied. This refutes the claim that a
`maxAge` of 0 stores the session with the default TTL. -/
theorem c1_maxAge_zero_triggers_delete (r : ValkeyStore) (session : Session)
    (randKey : List Nat) (serialized : Except String (List Char))
    (backend : Command → Option String) (encoded : Except String String)
    (h : session.options.maxAge = 0) :
    (ValkeyStore.Save r session randKey serialized backend encoded).commands =
      [Command.del (r.keyPrefix ++ session.id)] := by
  have hle : session.options.maxAge ≤ 0 := le_of_eq h
  unfold ValkeyStore.Save
  rw [if_pos hle]
  cases hb : backend (Command.del (r.keyPrefix ++ session.id)) <;> simp [hb]

/-- C1 witness: a concrete `MaxAge = 0` session is deleted, not stored. -/
theorem c1_maxAge_zero_triggers_delete_witness :
    (ValkeyStore.Save sampleStore sampleSession0 [] (Except.ok [])
        okBackend (Except.ok "enc")).commands =
      [Command.del ("session_" ++ "abc")] :=
  c1_maxAge_zero_triggers_delete sampleStore sampleSession0 [] (Except.ok [])
    okBackend (Except.ok "enc") rfl

/-- C2: when the backend's PING round trip completes without a transport
error, `NewValkeyStoreWithClient` succeeds no matter what the response text
is — the boolean `data == "PONG"` computed by `ping` is discarded by the
constructor — refuting the claim that a non-"PONG" liveness response fails
construction. -/
theorem c2_nonpong_construction_succeeds (data : String) :
    ∃ st, NewValkeyStoreWithClient (Except.ok data) = Except.ok st := by
  exact ⟨_, rfl⟩

/-- C5: `Delete` issues the backend `DEL` first; if it fails the error is
returned with `session.values` completely untouched and no cookie written;
on success it writes the expired cookie (empty value, options copy with
`MaxAge = -1`) and clears every entry of `session.values`. -/
theorem c5_delete_ordering (r : ValkeyStore) (session : Session)
    (backend : Command → Option String) :
    (∀ e, backend (Command.del (r.keyPrefix ++ session.id)) = some e →
      ValkeyStore.Delete r session backend =
        ⟨session, [Command.del (r.keyPrefix ++ session.id)], [], some e⟩) ∧
    (backend (Command.del (r.keyPrefix ++ session.id)) = none →
      ValkeyStore.Delete r session backend =
        ⟨{ session with values := [] }, [Command.del (r.keyPrefix ++ session.id)],
          [mkCookie session.name "" { session.options with maxAge := -1 }], none⟩) := by
  constructor
  · intro e he
    simp [ValkeyStore.Delete, he]
  · intro he
    simp [ValkeyStore.Delete, he]

/-- C5 witness: both branches at concrete inputs. -/
theorem c5_delete_ordering_witness :
    ValkeyStore.Delete sampleStore sampleSession0 failBackend =
      ⟨sampleSession0, [Command.del ("session_" ++ "abc")], [], some "boom"⟩ ∧
    ValkeyStore.Delete sampleStore sampleSession0 okBackend =
      ⟨{ sampleSession0 with values := [] }, [Command.del ("session_" ++ "abc")],
        [mkCookie "sid" "" { path := "/", maxAge := -1 }], none⟩ :=
  ⟨(c5_delete_ordering sampleStore sampleSession0 failBackend).1 "boom" rfl,
   (c5_delete_ordering sampleStore sampleSession0 okBackend).2 rfl⟩

/-- C9: a successful `Save` of a session with `MaxAge <= 0` (the
delete-on-save branch) returns the session object unchanged: id and value
map keep their contents — unlike `Delete`, nothing is cleared. -/
theorem c9_save_delete_branch_preserves_session (r : ValkeyStore)
    (session : Session) (randKey : List Nat)
    (serialized : Except String (List Char))
    (backend : Command → Option String) (encoded : Except String String)
    (h : session.options.maxAge ≤ 0)
    (hb : backend (Command.del (r.keyPrefix ++ session.id)) = none) :
    (ValkeyStore.Save r session randKey serialized backend encoded).session.id
        = session.id ∧
    (ValkeyStore.Save r session randKey serialized backend encoded).session.values
        = session.values ∧
    (ValkeyStore.Save r session randKey serialized backend encoded).error = none := by
  unfold ValkeyStore.Save
  rw [if_pos h]
  simp [hb]

/-- C9 witness: a concrete delete-on-save run keeps the in-memory data. -/
theorem c9_save_delete_branch_preserves_session_witness :
    (ValkeyStore.Save sampleStore sampleSession0 [] (Except.ok [])
        okBackend (Except.ok "enc")).session.id = "abc" ∧
    (ValkeyStore.Save sampleStore sampleSession0 [] (Except.ok [])
        okBackend (Except.ok "enc")).session.values
      = [(GoKey.str "foo", GoVal.str "bar")] ∧
    (ValkeyStore.Save sampleStore sampleSession0 [] (Except.ok [])
        okBackend (Except.ok "enc")).error = none :=
  c9_save_delete_branch_preserves_session sampleStore sampleSession0 []
    (Except.ok []) okBackend (Except.ok "enc") (by decide) rfl

/-- C4: with a non-zero `maxLength`, a serialized payload longer than
`maxLength` makes `save` return the descriptive error with an empty command
list (the backend receives zero calls); with `maxLength = 0` the size check
is skipped entirely and the `SETEX` is issued whatever the payload length. -/
theorem c4_payload_size_check (r : ValkeyStore) (session : Session)
    (b : List Char) (backend : Command → Option String) :
    (r.maxLength ≠ 0 → r.maxLength < b.length →
      ValkeyStore.save r session (Except.ok b) backend =
        (some "sessionstore: the value to store is too big", [])) ∧
    (r.maxLength = 0 →
      ValkeyStore.save r session (Except.ok b) backend =
        (backend (Command.setex (r.keyPrefix ++ session.id)
            (if session.options.maxAge = 0 then r.DefaultMaxAge
             else session.options.maxAge) b),
          [Command.setex (r.keyPrefix ++ session.id)
            (if session.options.maxAge = 0 then r.DefaultMaxAge
             else session.options.maxAge) b])) := by
  constructor
  · intro h1 h2
    simp only [ValkeyStore.save]
    rw [if_pos ⟨h1, h2⟩]
  · intro h0
    simp only [ValkeyStore.save]
    rw [if_neg (by simp [h0])]

/-- C4 witness: a three-character payload against a limit of two is rejected
with no backend call; the same payload is written when the limit is zero. -/
theorem c4_payload_size_check_witness :
    ValkeyStore.save smallStore sampleSessionNew (Except.ok ['a', 'b', 'c'])
        okBackend = (some "sessionstore: the value to store is too big", []) ∧
    ValkeyStore.save unboundedStore sampleSessionNew (Except.ok ['a', 'b', 'c'])
        okBackend = (none, [Command.setex ("session_" ++ "") 3600 ['a', 'b', 'c']]) :=
  ⟨(c4_payload_size_check smallStore sampleSessionNew ['a', 'b', 'c'] okBackend).1
      (by decide) (by decide),
   (c4_payload_size_check unboundedStore sampleSessionNew ['a', 'b', 'c'] okBackend).2 rfl⟩

/-- Whether an `Except` collaborator outcome is a success (Go `err == nil`). -/
def exceptIsOk : Except String α → Bool
  | .ok _ => true
  | .error _ => false

/-- Whether a backend `GET` outcome found data (a non-nil string reply). -/
def GetResp.found : GetResp → Bool
  | .value _ => true
  | _ => false

/-- C3: the session returned by `New` has `isNew = false` exactly when a
cookie was present, it decoded successfully, the backend load found data and
the payload deserialized without error; moreover a "not found" load outcome
leaves `isNew = true` with a nil error. -/
theorem c3_isNew_characterization (r : ValkeyStore) (name : String)
    (cookie : Option String) (decodeResp : Except String String)
    (getResp : GetResp) (deserialized : Except String ValMap) :
    ((ValkeyStore.New r name cookie decodeResp getResp deserialized).1.isNew = false ↔
      (cookie.isSome = true ∧ exceptIsOk decodeResp = true ∧
        GetResp.found getResp = true ∧ exceptIsOk deserialized = true)) ∧
    (cookie.isSome = true → exceptIsOk decodeResp = true →
      getResp = GetResp.nilReply →
      (ValkeyStore.New r name cookie decodeResp getResp deserialized).1.isNew = true ∧
      (ValkeyStore.New r name cookie decodeResp getResp deserialized).2 = none) := by
  cases cookie <;> cases decodeResp <;> cases getResp <;> cases deserialized <;>
    simp [ValkeyStore.New, ValkeyStore.load, exceptIsOk, GetResp.found]

/-- C3 witness: a "not found" load outcome leaves `isNew = true`, error nil. -/
theorem c3_isNew_characterization_witness :
    (ValkeyStore.New sampleStore "sid" (some "c") (Except.ok "abc")
        GetResp.nilReply (Except.ok [])).1.isNew = true ∧
    (ValkeyStore.New sampleStore "sid" (some "c") (Except.ok "abc")
        GetResp.nilReply (Except.ok [])).2 = none :=
  (c3_isNew_characterization sampleStore "sid" (some "c") (Except.ok "abc")
      GetResp.nilReply (Except.ok [])).2 rfl rfl rfl

/-- C10: `New` always returns a session object — also when it returns a
non-nil error — and that session carries its own copy of the store's default
options (equal in value to `r.Options`, so the store's defaults are not
shared); on any error outcome the session is still the fresh one
(`isNew = true`). -/
theorem c10_new_always_returns_fresh_session (r : ValkeyStore) (name : String)
    (cookie : Option String) (decodeResp : Except String String)
    (getResp : GetResp) (deserialized : Except String ValMap) :
    (ValkeyStore.New r name cookie decodeResp getResp deserialized).1.options
        = r.Options ∧
    (ValkeyStore.New r name cookie decodeResp getResp deserialized).1.name = name ∧
    ((ValkeyStore.New r name cookie decodeResp getResp deserialized).2 ≠ none →
      (ValkeyStore.New r name cookie decodeResp getResp deserialized).1.isNew = true) := by
  cases cookie <;> cases decodeResp <;> cases getResp <;> cases deserialized <;>
    simp [ValkeyStore.New, ValkeyStore.load]

/-- C10 witness: a decode failure still yields a usable fresh session. -/
theorem c10_new_always_returns_fresh_session_witness :
    (ValkeyStore.New sampleStore "sid" (some "c") (Except.error "bad cookie")
        GetResp.nilReply (Except.ok [])).1.isNew = true :=
  (c10_new_always_returns_fresh_session sampleStore "sid" (some "c")
      (Except.error "bad cookie") GetResp.nilReply (Except.ok [])).2.2 (by decide)

theorem lookup_setEntry_self (vs : ValMap) (k : GoKey) (v : GoVal) :
    ValMap.lookup (setEntry vs k v) k = some v := by
  induction vs with
  | nil => simp [setEntry, ValMap.lookup]
  | cons kv rest ih =>
    obtain ⟨k', v'⟩ := kv
    by_cases h : k' = k
    · simp [setEntry, h, ValMap.lookup]
    · simp [setEntry, h, ValMap.lookup, ih]

theorem lookup_setEntry_ne (vs : ValMap) (k0 : GoKey) (v : GoVal) (k : GoKey)
    (h : k0 ≠ k) : ValMap.lookup (setEntry vs k0 v) k = ValMap.lookup vs k := by
  induction vs with
  | nil => simp [setEntry, ValMap.lookup, h]
  | cons kv rest ih =>
    obtain ⟨k', v'⟩ := kv
    by_cases h' : k' = k0
    · subst h'
      simp [setEntry, ValMap.lookup, h]
    · simp [setEntry, h', ValMap.lookup, ih]

theorem mergeEntries_cons (k0 : GoKey) (v0 : GoVal) (rest : ValMap) (vs : ValMap) :
    mergeEntries ((k0, v0) :: rest) vs = mergeEntries rest (setEntry vs k0 v0) := rfl

theorem lookup_mergeEntries_not_mem (m : ValMap) (vs : ValMap) (k : GoKey)
    (h : k ∉ m.map Prod.fst) :
    ValMap.lookup (mergeEntries m vs) k = ValMap.lookup vs k := by
  induction m generalizing vs with
  | nil => rfl
  | cons kv rest ih =>
    obtain ⟨k0, v0⟩ := kv
    simp only [List.map_cons, List.mem_cons] at h
    push_neg at h
    rw [mergeEntries_cons, ih _ h.2]
    exact lookup_setEntry_ne vs k0 v0 k (fun he => h.1 he.symm)

theorem lookup_mergeEntries_mem (m : ValMap) (vs : ValMap) (k : GoKey) (v : GoVal)
    (hnd : (m.map Prod.fst).Nodup) (hmem : (k, v) ∈ m) :
    ValMap.lookup (mergeEntries m vs) k = some v := by
  induction m generalizing vs with
  | nil => cases hmem
  | cons kv rest ih =>
    obtain ⟨k0, v0⟩ := kv
    simp only [List.map_cons, List.nodup_cons] at hnd
    rcases List.mem_cons.mp hmem with heq | hrest
    · injection heq with h1 h2
      subst h1; subst h2
      rw [mergeEntries_cons, lookup_mergeEntries_not_mem rest _ k hnd.1]
      exact lookup_setEntry_self vs k v
    · rw [mergeEntries_cons]
      exact ih (setEntry vs k0 v0) hnd.2 hrest

theorem goKey_str_injective : Function.Injective GoKey.str := by
  intro a b h
  injection h

/-- C8: for both serializers, a successful `Deserialize` merges the decoded
entries into the target value map without clearing it: every decoded entry is
present afterwards, and every pre-existing entry whose key is not among the
decoded keys is untouched. (`hj`/`hg` record that a decoded Go map has
pairwise distinct keys.) -/
theorem c8_deserialize_merges (values : ValMap)
    (mj : List (String × GoVal)) (mg : ValMap)
    (hj : (mj.map Prod.fst).Nodup) (hg : (mg.map Prod.fst).Nodup) :
    (∃ out, JSONSerializer.Deserialize (Except.ok mj) values = Except.ok out ∧
      (∀ s v, (s, v) ∈ mj → ValMap.lookup out (GoKey.str s) = some v) ∧
      (∀ k, k ∉ mj.map (fun kv => GoKey.str kv.1) →
        ValMap.lookup out k = ValMap.lookup values k)) ∧
    (∃ out, GobSerializer.Deserialize (Except.ok mg) values = Except.ok out ∧
      (∀ k v, (k, v) ∈ mg → ValMap.lookup out k = some v) ∧
      (∀ k, k ∉ mg.map Prod.fst →
        ValMap.lookup out k = ValMap.lookup values k)) := by
  constructor
  · refine ⟨_, rfl, ?_, ?_⟩
    · intro s v hmem
      apply lookup_mergeEntries_mem
      · have : (mj.map (fun kv => (GoKey.str kv.1, kv.2))).map Prod.fst
            = (mj.map Prod.fst).map GoKey.str := by
          simp [List.map_map, Function.comp]
        rw [this]
        exact hj.map goKey_str_injective
      · exact List.mem_map_of_mem (fun kv => (GoKey.str kv.1, kv.2)) hmem
    · intro k hk
      apply lookup_mergeEntries_not_mem
      intro hmem
      apply hk
      simp only [List.map_map, Function.comp] at hmem ⊢
      exact hmem
  · refine ⟨_, rfl, ?_, ?_⟩
    · intro k v hmem
      exact lookup_mergeEntries_mem mg values k v hg hmem
    · intro k hk
      exact lookup_mergeEntries_not_mem mg values k hk

/-- C8 witness: a concrete merge keeps the untouched pre-existing entry and
contains the decoded one, for both serializers. -/
theorem c8_deserialize_merges_witness :
    (∃ out, JSONSerializer.Deserialize
        (Except.ok [("foo", GoVal.str "bar")])
        [(GoKey.str "old", GoVal.int 7)] = Except.ok out ∧
      (∀ s v, (s, v) ∈ [("foo", GoVal.str "bar")] →
        ValMap.lookup out (GoKey.str s) = some v) ∧
      (∀ k, k ∉ [("foo", GoVal.str "bar")].map
          (fun kv => GoKey.str kv.1) →
        ValMap.lookup out k = ValMap.lookup [(GoKey.str "old", GoVal.int 7)] k)) ∧
    (∃ out, GobSerializer.Deserialize
        (Except.ok [(GoKey.str "foo", GoVal.str "bar")])
        [(GoKey.str "old", GoVal.int 7)] = Except.ok out ∧
      (∀ k v, (k, v) ∈ [(GoKey.str "foo", GoVal.str "bar")] →
        ValMap.lookup out k = some v) ∧
      (∀ k, k ∉ [(GoKey.str "foo", GoVal.str "bar")].map Prod.fst →
        ValMap.lookup out k = ValMap.lookup [(GoKey.str "old", GoVal.int 7)] k)) :=
  c8_deserialize_merges [(GoKey.str "old", GoVal.int 7)]
    [("foo", GoVal.str "bar")] [(GoKey.str "foo", GoVal.str "bar")]
    (by simp) (by simp)

theorem toStringKeyMap_eq_none_iff (values : ValMap) :
    toStringKeyMap values = none ↔ ∃ n v, (GoKey.other n, v) ∈ values := by
  induction values with
  | nil => simp [toStringKeyMap]
  | cons kv rest ih =>
    obtain ⟨k, v⟩ := kv
    cases k with
    | str s => simp [toStringKeyMap, ih]
    | other n => exact iff_of_true rfl ⟨n, v, List.mem_cons_self _ _⟩

/-- C7: `JSONSerializer.Serialize` fails with the descriptive non-string-key
error exactly when the value map has a non-string key; when every key is a
string it returns the JSON encoding of the string-keyed projection of the
map. -/
theorem c7_json_serialize (values : ValMap) :
    ((∃ n v, (GoKey.other n, v) ∈ values) →
      JSONSerializer.Serialize values =
        Except.error "non-string key value, cannot serialize session to JSON") ∧
    ((∀ kv ∈ values, ∃ s, kv.1 = GoKey.str s) →
      ∃ m, toStringKeyMap values = some m ∧
        JSONSerializer.Serialize values = Except.ok (jsonMarshal m)) := by
  constructor
  · intro h
    have hn : toStringKeyMap values = none := (toStringKeyMap_eq_none_iff values).mpr h
    simp [JSONSerializer.Serialize, hn]
  · intro h
    have hn : toStringKeyMap values ≠ none := by
      intro hnone
      obtain ⟨n, v, hmem⟩ := (toStringKeyMap_eq_none_iff values).mp hnone
      obtain ⟨s, hs⟩ := h _ hmem
      simp at hs
    obtain ⟨m, hm⟩ := Option.ne_none_iff_exists'.mp hn
    exact ⟨m, hm, by simp [JSONSerializer.Serialize, hm]⟩

/-- C7 witness: a map with an integer key is rejected; an all-string-keyed
map serializes to its JSON encoding. -/
theorem c7_json_serialize_witness :
    JSONSerializer.Serialize [(GoKey.other 0, GoVal.str "x")] =
      Except.error "non-string key value, cannot serialize session to JSON" ∧
    ∃ m, toStringKeyMap [(GoKey.str "foo", GoVal.str "bar")] = some m ∧
      JSONSerializer.Serialize [(GoKey.str "foo", GoVal.str "bar")] =
        Except.ok (jsonMarshal m) :=
  ⟨(c7_json_serialize [(GoKey.other 0, GoVal.str "x")]).1 ⟨0, GoVal.str "x", by simp⟩,
   (c7_json_serialize [(GoKey.str "foo", GoVal.str "bar")]).2
     (by rintro kv hkv; simp at hkv; subst hkv; exact ⟨"foo", rfl⟩)⟩

theorem b32Indices_lt (chunk : List Nat) : ∀ i ∈ b32Indices chunk, i < 32 := by
  intro i hi
  simp only [b32Indices, List.mem_map] at hi
  obtain ⟨j, _, rfl⟩ := hi
  exact Nat.mod_lt _ (by norm_num)

theorem base32Indices_lt (l : List Nat) : ∀ i ∈ base32Indices l, i < 32 := by
  intro i hi
  simp only [base32Indices, List.mem_flatten, List.mem_map] at hi
  obtain ⟨_, ⟨c, _, rfl⟩, hic⟩ := hi
  exact b32Indices_lt c i hic

theorem base32Alphabet_getD_mem :
    ∀ i, i < 32 → base32Alphabet.getD i ' ' ∈ base32Alphabet ∧
      base32Alphabet.getD i ' ' ≠ '=' := by decide

theorem base32DataChars_mem (l : List Nat) :
    ∀ c ∈ base32DataChars l, c ∈ base32Alphabet ∧ c ≠ '=' := by
  intro c hc
  simp only [base32DataChars, List.mem_map] at hc
  obtain ⟨i, hi, rfl⟩ := hc
  exact base32Alphabet_getD_mem i (base32Indices_lt l i hi)

theorem dropWhile_replicate_append (k : Nat) (xs : List Char) :
    List.dropWhile (fun c => c == '=') (List.replicate k '=' ++ xs) =
      List.dropWhile (fun c => c == '=') xs := by
  induction k with
  | zero => simp
  | succ n ih => simp [List.replicate_succ, List.dropWhile_cons, ih]

theorem dropWhile_eq_self_of_ne (xs : List Char) (h : ∀ c ∈ xs, c ≠ '=') :
    List.dropWhile (fun c => c == '=') xs = xs := by
  cases xs with
  | nil => rfl
  | cons a l =>
    have ha : (a == '=') = false := by
      simpa using h a (List.mem_cons_self a l)
    simp [List.dropWhile_cons, ha]

theorem trimRightEq_append_replicate (xs : List Char) (k : Nat)
    (h : ∀ c ∈ xs, c ≠ '=') :
    trimRightEq (xs ++ List.replicate k '=') = xs := by
  unfold trimRightEq
  rw [List.reverse_append, List.reverse_replicate, dropWhile_replicate_append,
    dropWhile_eq_self_of_ne _ (fun c hc => h c (List.mem_reverse.mp hc)),
    List.reverse_reverse]

theorem generateSessionID_data (key : List Nat) :
    (generateSessionID key).data = base32DataChars key := by
  have ht : trimRightEq (base32EncodeToString key) = base32DataChars key :=
    trimRightEq_append_replicate _ _ (fun c hc => (base32DataChars_mem key c hc).2)
  simpa [generateSessionID] using ht

/-- C6: in `Save`'s persist branch (`MaxAge > 0`), a session with empty id is
assigned `strings.TrimRight(base32.StdEncoding.EncodeToString(key), "=")` of
the 32 random bytes `key`; the assigned id contains no `=` character and
consists only of characters of the uppercase standard base-32 alphabet. -/
theorem c6_generated_id_unpadded_base32 (r : ValkeyStore) (session : Session)
    (randKey : List Nat) (serialized : Except String (List Char))
    (backend : Command → Option String) (encoded : Except String String)
    (hAge : 0 < session.options.maxAge) (hID : session.id = "")
    (_hLen : randKey.length = 32) :
    (ValkeyStore.Save r session randKey serialized backend encoded).session.id
        = generateSessionID randKey ∧
    (∀ c ∈ (generateSessionID randKey).data, c ∈ base32Alphabet) ∧
    (∀ c ∈ (generateSessionID randKey).data, c ≠ '=') := by
  refine ⟨?_, ?_, ?_⟩
  · unfold ValkeyStore.Save
    rw [if_neg (not_le.mpr hAge)]
    simp only [hID, if_pos]
    rcases hs : ValkeyStore.save r { session with id := generateSessionID randKey }
        serialized backend with ⟨err, cmds⟩
    cases err <;> cases encoded <;> simp [hs]
  · intro c hc
    rw [generateSessionID_data] at hc
    exact (base32DataChars_mem randKey c hc).1
  · intro c hc
    rw [generateSessionID_data] at hc
    exact (base32DataChars_mem randKey c hc).2

/-- C6 witness: a concrete 32-byte key yields an id of unpadded base-32
characters that `Save` assigns to the session. -/
theorem c6_generated_id_unpadded_base32_witness :
    (ValkeyStore.Save sampleStore sampleSessionNew (List.replicate 32 0)
        (Except.ok []) okBackend (Except.ok "enc")).session.id
      = generateSessionID (List.replicate 32 0) ∧
    (∀ c ∈ (generateSessionID (List.replicate 32 0)).data, c ∈ base32Alphabet) ∧
    (∀ c ∈ (generateSessionID (List.replicate 32 0)).data, c ≠ '=') :=
  c6_generated_id_unpadded_base32 sampleStore sampleSessionNew
    (List.replicate 32 0) (Except.ok []) okBackend (Except.ok "enc")
    (by decide) rfl (by decide)
